import Mathlib

/-!
The Hardhat configuration of `ax_contracts` (`hardhat.config.js`).

The file exports one object literal whose fields are computed from
`process.env`.  The embedding below keeps JavaScript's dynamic typing for
every field that is computed from the environment: such a field is a
`JSValue`, and the operators the source applies to it (`||`, `!== undefined`,
`? :`) are Lean functions on `JSValue`.

`process.env` is read after `require('dotenv').config()` has run, so an
`Env` stands for the environment as the object literal sees it.
-/

namespace HardhatConfig

/-- The JavaScript values this configuration can produce from the
environment: `undefined`, a boolean, or a string. -/
inductive JSValue where
  | undefined : JSValue
  | bool (b : Bool) : JSValue
  | str (s : String) : JSValue
  deriving DecidableEq, Repr

/-- The environment store `process.env`: a variable is absent (`none`) or
holds a string, possibly the empty one. -/
abbrev Env := String → Option String

/-- The environment in which no variable is defined. -/
def emptyEnv : Env := fun _ => none

/-- The environment `env` with variable `k` rebound to `v` (`none` removes it). -/
def Env.set (env : Env) (k : String) (v : Option String) : Env :=
  fun x => if x = k then v else env x

/-- Property read `process.env.NAME`: the string when the variable is
defined, `undefined` otherwise. -/
def processEnv (env : Env) (name : String) : JSValue :=
  match env name with
  | some s => JSValue.str s
  | none => JSValue.undefined

/-- JavaScript truthiness (`ToBoolean`) on the values above: `undefined` and
the empty string are falsy. -/
def truthy : JSValue → Bool
  | JSValue.undefined => false
  | JSValue.bool b => b
  | JSValue.str s => s != ""

/-- The operator `a || b`: `a` when it is truthy, `b` otherwise. -/
def jsOr (a b : JSValue) : JSValue :=
  if truthy a then a else b

/-- The operator `a !== b` on the values above (strict inequality of
primitives is inequality of type and value). -/
def strictNe (a b : JSValue) : Bool :=
  a != b

/-- One entry of `networks`: `{ url: ..., accounts: [...] }`. -/
structure NetworkConfig where
  url : JSValue
  accounts : List JSValue
  deriving DecidableEq, Repr

/-- The object literal `module.exports.networks` (lines 22-78), key by key in
source order.  The commented-out `espace_testnet` block (lines 73-77) is not
part of the literal. -/
def networks (env : Env) : List (String × NetworkConfig) :=
  [ ("ethereum_sepolia",
      { url := jsOr (processEnv env "ETH_MAINNET_SEPOLIA_URL") (JSValue.str "")
        accounts :=
          if strictNe (processEnv env "PRIVATE_KEY") JSValue.undefined
          then [processEnv env "PRIVATE_KEY"] else [] }),
    ("arb_sepolia",
      { url := jsOr (processEnv env "ARB_SEPOLIA_URL") (JSValue.str "")
        accounts :=
          if strictNe (processEnv env "PRIVATE_KEY") JSValue.undefined
          then [processEnv env "PRIVATE_KEY"] else [] }),
    ("op_sepolia",
      { url := jsOr (processEnv env "OP_SEPARATOR_URL") (JSValue.str "")
        accounts :=
          if strictNe (processEnv env "PRIVATE_KEY") JSValue.undefined
          then [processEnv env "PRIVATE_KEY"] else [] }),
    ("base_sepolia",
      { url := JSValue.str "https://sepolia.base.org"
        accounts :=
          if strictNe (processEnv env "PRIVATE_KEY") JSValue.undefined
          then [processEnv env "PRIVATE_KEY"] else [] }),
    ("linea_sepolia",
      { url := jsOr (processEnv env "LINEA_SEPOLIA_URL") (JSValue.str "")
        accounts :=
          if strictNe (processEnv env "PRIVATE_KEY") JSValue.undefined
          then [processEnv env "PRIVATE_KEY"] else [] }),
    ("scroll_sepolia",
      { url := JSValue.str "https://sepolia-rpc.scroll.io"
        accounts :=
          if strictNe (processEnv env "PRIVATE_KEY") JSValue.undefined
          then [processEnv env "PRIVATE_KEY"] else [] }),
    ("blast_sepolia",
      { url := JSValue.str "https://sepolia.blast.io"
        accounts :=
          if strictNe (processEnv env "PRIVATE_KEY") JSValue.undefined
          then [processEnv env "PRIVATE_KEY"] else [] }),
    ("manta_pacific_sepolia",
      { url := JSValue.str "https://pacific-rpc.sepolia-testnet.manta.network/http"
        accounts :=
          if strictNe (processEnv env "PRIVATE_KEY") JSValue.undefined
          then [processEnv env "PRIVATE_KEY"] else [] }),
    ("mantle_testnet",
      { url := jsOr (processEnv env "MANTLE_TESTNET_URL") (JSValue.str "")
        accounts :=
          if strictNe (processEnv env "PRIVATE_KEY") JSValue.undefined
          then [processEnv env "PRIVATE_KEY"] else [] }),
    ("bitlayer_testnet",
      { url := JSValue.str "https://testnet-rpc.bitlayer-rpc.com"
        accounts :=
          if strictNe (processEnv env "PRIVATE_KEY") JSValue.undefined
          then [processEnv env "PRIVATE_KEY"] else [] }) ]

/-- The object `settings.optimizer` (lines 17-20); the key is spelled
`enables` in the source. -/
structure OptimizerConfig where
  enables : Bool
  runs : Nat
  deriving DecidableEq, Repr

/-- The object `gasReporter` (lines 79-82). -/
structure GasReporterConfig where
  enabled : JSValue
  currency : String
  deriving DecidableEq, Repr

/-- The object `typechain` (lines 89-92). -/
structure TypechainConfig where
  outDir : String
  target : String
  deriving DecidableEq, Repr

/-- The exported configuration object (lines 14-94).  The one-field objects
`settings`, `etherscan` and `sourcify` are flattened into the field they hold. -/
structure Config where
  solidity : String
  settingsOptimizer : OptimizerConfig
  networks : List (String × NetworkConfig)
  gasReporter : GasReporterConfig
  etherscanApiKey : JSValue
  sourcifyEnabled : Bool
  typechain : TypechainConfig
  deriving DecidableEq, Repr

/-- The value of `module.exports` for a given environment. -/
def moduleExports (env : Env) : Config :=
  { solidity := "0.8.4"
    settingsOptimizer := { enables := true, runs := 10 }
    networks := networks env
    gasReporter :=
      { enabled := JSValue.bool (strictNe (processEnv env "REPORT_GAS") JSValue.undefined)
        currency := "USD" }
    etherscanApiKey := processEnv env "ETHERSCAN_API_KEY"
    sourcifyEnabled := false
    typechain := { outDir := "typechain", target := "ethers-v5" } }

/-- The ten keys of the `networks` literal, in source order. -/
def networkNames : List String :=
  [ "ethereum_sepolia", "arb_sepolia", "op_sepolia", "base_sepolia", "linea_sepolia",
    "scroll_sepolia", "blast_sepolia", "manta_pacific_sepolia", "mantle_testnet",
    "bitlayer_testnet" ]

/-- The five networks whose `url` is read from the environment, each with the
variable the source reads for it. -/
def urlVariables : List (String × String) :=
  [ ("ethereum_sepolia", "ETH_MAINNET_SEPOLIA_URL"),
    ("arb_sepolia", "ARB_SEPOLIA_URL"),
    ("op_sepolia", "OP_SEPARATOR_URL"),
    ("linea_sepolia", "LINEA_SEPOLIA_URL"),
    ("mantle_testnet", "MANTLE_TESTNET_URL") ]

/-- The five networks whose `url` is a string literal, each with that literal. -/
def hardCodedUrls : List (String × String) :=
  [ ("base_sepolia", "https://sepolia.base.org"),
    ("scroll_sepolia", "https://sepolia-rpc.scroll.io"),
    ("blast_sepolia", "https://sepolia.blast.io"),
    ("manta_pacific_sepolia", "https://pacific-rpc.sepolia-testnet.manta.network/http"),
    ("bitlayer_testnet", "https://testnet-rpc.bitlayer-rpc.com") ]

/-- The scenario environment `PRIVATE_KEY=0xabc`,
`ARB_SEPOLIA_URL=https://example.org/rpc`. -/
def scenarioEnv : Env := fun k =>
  if k = "PRIVATE_KEY" then some "0xabc"
  else if k = "ARB_SEPOLIA_URL" then some "https://example.org/rpc"
  else none

/-- The environment that defines `PRIVATE_KEY=0xabc` and nothing else. -/
def keyOnlyEnv : Env := fun k =>
  if k = "PRIVATE_KEY" then some "0xabc" else none


/-- The URL variable designated for a network, if it has one. -/
def designatedVar (name : String) : Option String :=
  urlVariables.lookup name

/-- One tuple `{name, envVarName, fallbackUrl}` of the declarative list the
specification proposes; `envVarName` is absent for a hard-coded network. -/
structure NetworkTuple where
  name : String
  envVarName : Option String
  fallbackUrl : String
  deriving DecidableEq, Repr

/-- The declarative list of the specification's data-driven builder: the five
environment-driven networks have an empty `fallbackUrl`, the five hard-coded
ones have no `envVarName`. -/
def specNetworkTuples : List NetworkTuple :=
  [ { name := "ethereum_sepolia", envVarName := some "ETH_MAINNET_SEPOLIA_URL", fallbackUrl := "" },
    { name := "arb_sepolia", envVarName := some "ARB_SEPOLIA_URL", fallbackUrl := "" },
    { name := "op_sepolia", envVarName := some "OP_SEPARATOR_URL", fallbackUrl := "" },
    { name := "base_sepolia", envVarName := none, fallbackUrl := "https://sepolia.base.org" },
    { name := "linea_sepolia", envVarName := some "LINEA_SEPOLIA_URL", fallbackUrl := "" },
    { name := "scroll_sepolia", envVarName := none,
      fallbackUrl := "https://sepolia-rpc.scroll.io" },
    { name := "blast_sepolia", envVarName := none, fallbackUrl := "https://sepolia.blast.io" },
    { name := "manta_pacific_sepolia", envVarName := none,
      fallbackUrl := "https://pacific-rpc.sepolia-testnet.manta.network/http" },
    { name := "mantle_testnet", envVarName := some "MANTLE_TESTNET_URL", fallbackUrl := "" },
    { name := "bitlayer_testnet", envVarName := none,
      fallbackUrl := "https://testnet-rpc.bitlayer-rpc.com" } ]

/-- The url the specification's loop gives a tuple: the value of `envVarName`
when that variable is set to a non-empty string, `fallbackUrl` otherwise. -/
def specUrl (env : Env) (t : NetworkTuple) : String :=
  match t.envVarName with
  | some v =>
    match env v with
    | some s => if s ≠ "" then s else t.fallbackUrl
    | none => t.fallbackUrl
  | none => t.fallbackUrl

/-- The accounts the specification's loop gives every tuple: `[PRIVATE_KEY]`
when `PRIVATE_KEY` is defined, empty otherwise. -/
def specAccounts (env : Env) : List String :=
  match env "PRIVATE_KEY" with
  | some K => [K]
  | none => []

/-- The table of the specification's data-driven builder: one loop over
`specNetworkTuples`. -/
def specNetworks (env : Env) : List (String × NetworkConfig) :=
  specNetworkTuples.map fun t =>
    (t.name, { url := JSValue.str (specUrl env t)
               accounts := (specAccounts env).map JSValue.str })

/-! Shared lemmas on the embedded operators -/

/-- The `accounts` expression shared by all ten entries, by cases on
`PRIVATE_KEY`. -/
theorem accounts_expr (env : Env) :
    (if strictNe (processEnv env "PRIVATE_KEY") JSValue.undefined
      then [processEnv env "PRIVATE_KEY"] else [])
      = match env "PRIVATE_KEY" with
        | some K => [JSValue.str K]
        | none => [] := by
  cases h : env "PRIVATE_KEY" <;> simp [processEnv, strictNe, h]

/-- The expression `process.env.V || ''` is the variable's value when it is
defined and the empty string otherwise. -/
theorem url_expr (env : Env) (v : String) :
    jsOr (processEnv env v) (JSValue.str "") = JSValue.str ((env v).getD "") := by
  cases h : env v with
  | none => simp [processEnv, jsOr, truthy, h]
  | some s =>
    by_cases hs : s = ""
    · simp [processEnv, jsOr, truthy, h, hs]
    · simp [processEnv, jsOr, truthy, h, hs]


/-- Every entry's `accounts`, by cases on `PRIVATE_KEY`. -/
theorem mem_networks_accounts (env : Env) (p : String × NetworkConfig)
    (hp : p ∈ networks env) :
    p.2.accounts = match env "PRIVATE_KEY" with
        | some K => [JSValue.str K]
        | none => [] := by
  have h := accounts_expr env
  simp only [networks, List.mem_cons, List.mem_singleton, List.not_mem_nil, or_false] at hp
  rcases hp with rfl | rfl | rfl | rfl | rfl | rfl | rfl | rfl | rfl | rfl <;> exact h

/-! Claims about the `networks` table -/

/-- C9: for every environment the keys of the table are exactly the ten
network names, in source order and pairwise distinct; `espace_testnet`, which
the source only has in a comment, is not a key; and every entry's `accounts`
has at most one element. -/
theorem network_names_fixed (env : Env) :
    (networks env).map Prod.fst =
        [ "ethereum_sepolia", "arb_sepolia", "op_sepolia", "base_sepolia", "linea_sepolia",
          "scroll_sepolia", "blast_sepolia", "manta_pacific_sepolia", "mantle_testnet",
          "bitlayer_testnet" ]
      ∧ (networks env).length = 10
      ∧ ((networks env).map Prod.fst).Nodup
      ∧ "espace_testnet" ∉ (networks env).map Prod.fst
      ∧ (networks env).lookup "espace_testnet" = none
      ∧ ∀ p ∈ networks env, p.2.accounts.length ≤ 1 := by
  refine ⟨by simp [networks], by simp [networks], by simp [networks], by simp [networks],
    by simp [networks, List.lookup], ?_⟩
  intro p hp
  rw [mem_networks_accounts env p hp]
  cases env "PRIVATE_KEY" <;> simp

/-- C1: for every environment and each of the ten networks, the entry exists
and its `accounts` is `[K]` exactly when `PRIVATE_KEY` is defined with value
`K` (the empty string included); when `PRIVATE_KEY` is not defined, `accounts`
is the empty sequence. -/
theorem accounts_iff_private_key (env : Env) (name : String) (hname : name ∈ networkNames) :
    ∃ n, (networks env).lookup name = some n
      ∧ (∀ K : String, n.accounts = [JSValue.str K] ↔ env "PRIVATE_KEY" = some K)
      ∧ (env "PRIVATE_KEY" = none → n.accounts = []) := by
  simp only [networkNames, List.mem_cons, List.mem_singleton, List.not_mem_nil, or_false] at hname
  rcases hname with rfl | rfl | rfl | rfl | rfl | rfl | rfl | rfl | rfl | rfl <;>
    (simp only [networks, List.lookup, accounts_expr]
     cases h : env "PRIVATE_KEY" <;> simp)

/-- Witness of C1: with `PRIVATE_KEY` defined as the empty string, the
`arb_sepolia` entry exists and its `accounts` is `[""]`. -/
theorem accounts_iff_private_key_witness :
    "arb_sepolia" ∈ networkNames
      ∧ ∃ n, (networks (emptyEnv.set "PRIVATE_KEY" (some ""))).lookup "arb_sepolia" = some n
          ∧ n.accounts = [JSValue.str ""] := by
  refine ⟨by decide, ?_⟩
  obtain ⟨n, hn, hiff, _⟩ :=
    accounts_iff_private_key (emptyEnv.set "PRIVATE_KEY" (some "")) "arb_sepolia" (by decide)
  exact ⟨n, hn, (hiff "").2 (by simp [Env.set])⟩

/-- C2: for each of the five networks with a designated URL variable and every
non-empty string `S`, if the variable is set to `S` then the entry's `url` is
the string `S` itself; and in the scenario environment (`PRIVATE_KEY=0xabc`,
`ARB_SEPOLIA_URL=https://example.org/rpc`) the `arb_sepolia` entry is
`{url: "https://example.org/rpc", accounts: ["0xabc"]}`. -/
theorem url_of_set_variable :
    (∀ (env : Env) (S : String), S ≠ "" → ∀ p ∈ urlVariables, env p.2 = some S →
        ∃ n, (networks env).lookup p.1 = some n ∧ n.url = JSValue.str S)
      ∧ (networks scenarioEnv).lookup "arb_sepolia"
          = some { url := JSValue.str "https://example.org/rpc"
                   accounts := [JSValue.str "0xabc"] } := by
  refine ⟨?_, by decide⟩
  intro env S _ p hp hset
  simp only [urlVariables, List.mem_cons, List.mem_singleton, List.not_mem_nil, or_false] at hp
  rcases hp with rfl | rfl | rfl | rfl | rfl <;>
    simp [networks, List.lookup, url_expr, hset]

/-- Witness of C2: a value with surrounding blanks that is no URL is taken
verbatim as the `url` of `op_sepolia`. -/
theorem url_of_set_variable_witness :
    ∃ n, (networks (emptyEnv.set "OP_SEPARATOR_URL" (some "  not a url "))).lookup "op_sepolia"
        = some n ∧ n.url = JSValue.str "  not a url " :=
  url_of_set_variable.1 (emptyEnv.set "OP_SEPARATOR_URL" (some "  not a url ")) "  not a url "
    (by decide) ("op_sepolia", "OP_SEPARATOR_URL") (by decide) (by decide)

/-- C3: for each of the five networks with a designated URL variable, if the
variable is unset then the entry's `url` is the empty string; and in the empty
environment the `ethereum_sepolia` entry is `{url: "", accounts: []}`. -/
theorem url_of_unset_variable :
    (∀ (env : Env), ∀ p ∈ urlVariables, env p.2 = none →
        ∃ n, (networks env).lookup p.1 = some n ∧ n.url = JSValue.str "")
      ∧ (networks emptyEnv).lookup "ethereum_sepolia"
          = some { url := JSValue.str "", accounts := [] } := by
  refine ⟨?_, by decide⟩
  intro env p hp hunset
  simp only [urlVariables, List.mem_cons, List.mem_singleton, List.not_mem_nil, or_false] at hp
  rcases hp with rfl | rfl | rfl | rfl | rfl <;>
    simp [networks, List.lookup, url_expr, hunset]

/-- Witness of C3: with only `PRIVATE_KEY` defined, `mantle_testnet` has the
empty string as `url`. -/
theorem url_of_unset_variable_witness :
    ∃ n, (networks keyOnlyEnv).lookup "mantle_testnet" = some n ∧ n.url = JSValue.str "" :=
  url_of_unset_variable.1 keyOnlyEnv ("mantle_testnet", "MANTLE_TESTNET_URL")
    (by decide) (by decide)

/-- C4: for every environment each of the five hard-coded networks has its
literal as `url`; and whenever `PRIVATE_KEY=0xabc` the `base_sepolia` entry is
`{url: "https://sepolia.base.org", accounts: ["0xabc"]}`. -/
theorem hard_coded_urls :
    (∀ (env : Env), ∀ p ∈ hardCodedUrls,
        ∃ n, (networks env).lookup p.1 = some n ∧ n.url = JSValue.str p.2)
      ∧ (∀ (env : Env), env "PRIVATE_KEY" = some "0xabc" →
          (networks env).lookup "base_sepolia"
            = some { url := JSValue.str "https://sepolia.base.org"
                     accounts := [JSValue.str "0xabc"] }) := by
  constructor
  · intro env p hp
    simp only [hardCodedUrls, List.mem_cons, List.mem_singleton, List.not_mem_nil,
      or_false] at hp
    rcases hp with rfl | rfl | rfl | rfl | rfl <;> simp [networks, List.lookup]
  · intro env hkey
    simp [networks, List.lookup, accounts_expr, hkey]

/-- Witness of C4: in the scenario environment, which also defines
`ARB_SEPOLIA_URL`, the `base_sepolia` entry is the expected one. -/
theorem hard_coded_urls_witness :
    (networks scenarioEnv).lookup "base_sepolia"
      = some { url := JSValue.str "https://sepolia.base.org"
               accounts := [JSValue.str "0xabc"] } :=
  hard_coded_urls.2 scenarioEnv (by decide)

/-- C5: for every environment the builder yields a table of ten entries in
which every `url` is a string and every `accounts` is a sequence of strings;
an unset URL variable gives the empty string and an unset `PRIVATE_KEY` gives
the empty sequence.  (The builder is a total function: the operators of the
literal are total on JavaScript values.) -/
theorem build_never_fails (env : Env) :
    (moduleExports env).networks.length = 10
      ∧ (∀ p ∈ (moduleExports env).networks,
          (∃ s : String, p.2.url = JSValue.str s)
            ∧ ∃ ks : List String, p.2.accounts = ks.map JSValue.str)
      ∧ (∀ q ∈ urlVariables, env q.2 = none →
          ∃ n, (moduleExports env).networks.lookup q.1 = some n ∧ n.url = JSValue.str "")
      ∧ (env "PRIVATE_KEY" = none →
          ∀ p ∈ (moduleExports env).networks, p.2.accounts = []) := by
  refine ⟨by simp [moduleExports, networks], ?_, ?_, ?_⟩
  · intro p hp
    refine ⟨?_, ?_⟩
    · simp only [moduleExports, networks, List.mem_cons, List.mem_singleton,
        List.not_mem_nil, or_false] at hp
      rcases hp with rfl | rfl | rfl | rfl | rfl | rfl | rfl | rfl | rfl | rfl <;>
        simp [url_expr]
    · rw [mem_networks_accounts env p hp]
      cases env "PRIVATE_KEY" with
      | none => exact ⟨[], rfl⟩
      | some K => exact ⟨[K], rfl⟩
  · intro q hq hunset
    simp only [urlVariables, List.mem_cons, List.mem_singleton, List.not_mem_nil,
      or_false] at hq
    rcases hq with rfl | rfl | rfl | rfl | rfl <;>
      simp [moduleExports, networks, List.lookup, url_expr, hunset]
  · intro hkey p hp
    rw [mem_networks_accounts env p hp, hkey]

/-- C6: two environments that agree on `PRIVATE_KEY` and on a network's
designated URL variable (if it has one) give that network the same entry;
hence rebinding a variable other than `PRIVATE_KEY` changes no entry but that
of the network it is designated for, and the entry of a hard-coded network is
the same in any two environments that agree on `PRIVATE_KEY`. -/
theorem entries_independent :
    (∀ (e₁ e₂ : Env) (name : String), e₁ "PRIVATE_KEY" = e₂ "PRIVATE_KEY" →
        (∀ v, designatedVar name = some v → e₁ v = e₂ v) →
        (networks e₁).lookup name = (networks e₂).lookup name)
      ∧ (∀ (env : Env) (v : String) (s : Option String) (name : String),
          v ≠ "PRIVATE_KEY" → designatedVar name ≠ some v →
          (networks (env.set v s)).lookup name = (networks env).lookup name)
      ∧ (∀ (e₁ e₂ : Env), e₁ "PRIVATE_KEY" = e₂ "PRIVATE_KEY" →
          ∀ p ∈ hardCodedUrls, (networks e₁).lookup p.1 = (networks e₂).lookup p.1) := by
  have main : ∀ (e₁ e₂ : Env) (name : String), e₁ "PRIVATE_KEY" = e₂ "PRIVATE_KEY" →
      (∀ v, designatedVar name = some v → e₁ v = e₂ v) →
      (networks e₁).lookup name = (networks e₂).lookup name := by
    intro e₁ e₂ name hkey hvar
    simp only [networks, List.lookup, accounts_expr, url_expr, hkey]
    simp only [designatedVar, urlVariables, List.lookup] at hvar
    repeat' split
    all_goals first
      | rfl
      | simp_all
  refine ⟨main, ?_, ?_⟩
  · intro env v s name hv hname
    apply main
    · simp [Env.set, Ne.symm hv]
    · intro w hw
      have : w ≠ v := fun h => hname (h ▸ hw)
      simp [Env.set, this]
  · intro e₁ e₂ hkey p hp
    apply main e₁ e₂ p.1 hkey
    intro v hv
    simp only [hardCodedUrls, List.mem_cons, List.mem_singleton, List.not_mem_nil,
      or_false] at hp
    rcases hp with rfl | rfl | rfl | rfl | rfl <;>
      simp [designatedVar, urlVariables, List.lookup] at hv

/-- Witness of C6: defining `ARB_SEPOLIA_URL` leaves the `op_sepolia` entry as
it is in the environment with only `PRIVATE_KEY`, while the `arb_sepolia`
entry does change. -/
theorem entries_independent_witness :
    (networks scenarioEnv).lookup "op_sepolia" = (networks keyOnlyEnv).lookup "op_sepolia"
      ∧ (networks scenarioEnv).lookup "arb_sepolia"
          ≠ (networks keyOnlyEnv).lookup "arb_sepolia" := by
  refine ⟨entries_independent.1 scenarioEnv keyOnlyEnv "op_sepolia" (by decide) ?_, by decide⟩
  intro v hv
  have hv' : v = "OP_SEPARATOR_URL" := by
    simpa [designatedVar, urlVariables, List.lookup] using hv.symm
  subst hv'
  decide

/-! Claims about the other environment-driven fields -/

/-- C7: `gasReporter.enabled` is `true` exactly when `REPORT_GAS` is defined,
whatever its value, and `false` when it is absent. -/
theorem gas_reporter_enabled (env : Env) :
    ((moduleExports env).gasReporter.enabled = JSValue.bool true
        ↔ ∃ V : String, env "REPORT_GAS" = some V)
      ∧ (env "REPORT_GAS" = none →
          (moduleExports env).gasReporter.enabled = JSValue.bool false)
      ∧ ∀ V : String, env "REPORT_GAS" = some V →
          (moduleExports env).gasReporter.enabled = JSValue.bool true := by
  cases h : env "REPORT_GAS" <;> simp [moduleExports, processEnv, strictNe, h]

/-- Witness of C7: the values `""`, `"0"` and `"false"` of `REPORT_GAS` all
enable the gas reporter, and the empty environment disables it. -/
theorem gas_reporter_enabled_witness :
    (moduleExports (emptyEnv.set "REPORT_GAS" (some ""))).gasReporter.enabled
        = JSValue.bool true
      ∧ (moduleExports (emptyEnv.set "REPORT_GAS" (some "0"))).gasReporter.enabled
          = JSValue.bool true
      ∧ (moduleExports (emptyEnv.set "REPORT_GAS" (some "false"))).gasReporter.enabled
          = JSValue.bool true
      ∧ (moduleExports emptyEnv).gasReporter.enabled = JSValue.bool false :=
  ⟨(gas_reporter_enabled _).2.2 "" (by decide),
   (gas_reporter_enabled _).2.2 "0" (by decide),
   (gas_reporter_enabled _).2.2 "false" (by decide),
   (gas_reporter_enabled emptyEnv).2.1 (by decide)⟩

/-- C8: `etherscan.apiKey` is `undefined` when `ETHERSCAN_API_KEY` is absent
and the string `V` itself when the variable is defined with value `V` (the
empty string included); `sourcify.enabled` is `false` in every environment. -/
theorem etherscan_api_key (env : Env) :
    (env "ETHERSCAN_API_KEY" = none → (moduleExports env).etherscanApiKey = JSValue.undefined)
      ∧ (∀ V : String, env "ETHERSCAN_API_KEY" = some V →
          (moduleExports env).etherscanApiKey = JSValue.str V)
      ∧ (moduleExports env).sourcifyEnabled = false := by
  refine ⟨fun h => ?_, fun V h => ?_, rfl⟩
  · simp [moduleExports, processEnv, h]
  · simp [moduleExports, processEnv, h]

/-- Witness of C8: an `ETHERSCAN_API_KEY` defined as the empty string gives
the empty string as `apiKey`, and the empty environment gives `undefined`. -/
theorem etherscan_api_key_witness :
    (moduleExports (emptyEnv.set "ETHERSCAN_API_KEY" (some ""))).etherscanApiKey
        = JSValue.str ""
      ∧ (moduleExports emptyEnv).etherscanApiKey = JSValue.undefined :=
  ⟨(etherscan_api_key _).2.1 "" (by decide), (etherscan_api_key emptyEnv).1 (by decide)⟩

/-! Refinement: the literal against the data-driven loop -/

/-- C10: for every environment the hand-written `networks` literal equals the
table of the data-driven loop over the ten `{name, envVarName, fallbackUrl}`
tuples. -/
theorem networks_eq_specNetworks (env : Env) : networks env = specNetworks env := by
  have hacc : (match env "PRIVATE_KEY" with
      | some K => [JSValue.str K]
      | none => []) = (specAccounts env).map JSValue.str := by
    cases h : env "PRIVATE_KEY" <;> simp [specAccounts, h]
  have hurl : ∀ v : String, JSValue.str ((env v).getD "")
      = JSValue.str (specUrl env { name := "", envVarName := some v, fallbackUrl := "" }) := by
    intro v
    cases h : env v with
    | none => simp [specUrl, h]
    | some s => by_cases hs : s = "" <;> simp [specUrl, h, hs]
  simp only [networks, specNetworks, specNetworkTuples, List.map, accounts_expr, url_expr,
    hacc, hurl]
  rfl

end HardhatConfig
